import Mathlib

/-!
# ternarybob/banner: a shallow embedding of `banner.go`

The Go package prints bordered text boxes to standard output.  The embedding
follows `src/banner.go` function by function.

Modelling conventions:

* A Go `string` is an immutable byte sequence, `GoString = List UInt8`;
  `len` counts bytes and `s[:n]` slices bytes.  String literals of the source
  are written as Lean literals and turned into their UTF-8 bytes by `str`.
* A Go `int` is a 64-bit signed integer.  It is modelled by `Int`, every
  subtraction of the source goes through `wrapInt` (two's complement
  wrap-around), and theorems about a value `w` of type `int` carry the range
  hypothesis `w ≤ maxInt` where the wrap-around matters.
* A run-time panic of the Go program is the `error` branch of
  `Except RuntimeError`.  Two panics can occur in this package:
  `strings.Repeat` with a negative count, and a slice expression `s[:n]` with
  `n` outside `0 .. len(s)`.
* Memory is unbounded: the allocation limit of the Go runtime, and with it
  the "output length overflow" panic of `strings.Repeat`, is not modelled.
* Standard output is modelled by the value a printing function returns: the
  bytes the call writes.  Write errors on the stream are not modelled (the
  source ignores them too).  A function that makes several printing calls
  returns the concatenation of what they write; when one of them panics the
  result is the panic.
* `fmt.Sprintf` and `utf8.RuneCountInString` of the standard library are
  modelled by `sprintfPadded` and `runeCountInString`.
* `*Banner` receivers are mutated in place and returned by the setters; the
  setters are modelled as functions `Banner → Banner`.
-/

namespace banner

/-! ## Go strings and integers -/

/-- A Go string: a sequence of bytes. -/
abbrev GoString := List UInt8

/-- UTF-8 encoding of one code point, as the Go compiler stores a literal. -/
def utf8EncodeChar (c : Char) : List UInt8 :=
  let v := c.toNat
  if v < 0x80 then [v.toUInt8]
  else if v < 0x800 then [(0xC0 + v / 64).toUInt8, (0x80 + v % 64).toUInt8]
  else if v < 0x10000 then
    [(0xE0 + v / 4096).toUInt8, (0x80 + v / 64 % 64).toUInt8, (0x80 + v % 64).toUInt8]
  else
    [(0xF0 + v / 262144).toUInt8, (0x80 + v / 4096 % 64).toUInt8,
     (0x80 + v / 64 % 64).toUInt8, (0x80 + v % 64).toUInt8]

/-- The bytes of a source-code string literal. -/
def str (s : String) : GoString := s.data.flatMap utf8EncodeChar

/-- Largest value of a Go `int` (64-bit). -/
def maxInt : Int := 2 ^ 63 - 1

/-- Smallest value of a Go `int` (64-bit). -/
def minInt : Int := -(2 ^ 63)

/-- Two's complement wrap-around of a 64-bit signed result. -/
def wrapInt (x : Int) : Int := (x + 2 ^ 63) % 2 ^ 64 - 2 ^ 63

/-- Go's builtin `len` on a string: the number of bytes. -/
def len (s : GoString) : Int := (s.length : Int)

/-- The run-time panics this package can raise. -/
inductive RuntimeError where
  /-- Raised by `strings.Repeat(s, count)` when `count < 0`. -/
  | negativeRepeatCount
  /-- Raised by `s[:n]` when `n < 0` or `n > len(s)`. -/
  | sliceBoundsOutOfRange
  deriving DecidableEq, Repr

/-- Go's `strings.Repeat(s, count)`: panics on a negative count. -/
def stringsRepeat (s : GoString) (count : Int) : Except RuntimeError GoString :=
  if count < 0 then .error .negativeRepeatCount
  else .ok (List.replicate count.toNat s).flatten

/-- Go's slice expression `s[:hi]` on a string: panics unless
`0 ≤ hi ≤ len(s)`. -/
def sliceTo (s : GoString) (hi : Int) : Except RuntimeError GoString :=
  if 0 ≤ hi ∧ hi ≤ len s then .ok (s.take hi.toNat)
  else .error .sliceBoundsOutOfRange

/-- The number of bytes `utf8.RuneCountInString` consumes at the head of a
non-empty string: the length of a well-formed UTF-8 encoding that starts
there (tables `first` and `acceptRanges` of `unicode/utf8`), and 1 for an
ASCII byte or for a byte that starts no well-formed encoding. -/
def runeSize (s : GoString) : Nat :=
  let cont (c : UInt8) : Bool := decide (0x80 ≤ c.toNat ∧ c.toNat ≤ 0xBF)
  match s with
  | [] => 0
  | c :: rest =>
    let c := c.toNat
    if c < 0x80 then 1
    else if c < 0xC2 then 1
    else if c ≤ 0xDF then
      match rest with
      | c1 :: _ => if cont c1 then 2 else 1
      | _ => 1
    else if c ≤ 0xEF then
      let lo := if c = 0xE0 then 0xA0 else 0x80
      let hi := if c = 0xED then 0x9F else 0xBF
      match rest with
      | c1 :: c2 :: _ => if lo ≤ c1.toNat ∧ c1.toNat ≤ hi ∧ cont c2 then 3 else 1
      | _ => 1
    else if c ≤ 0xF4 then
      let lo := if c = 0xF0 then 0x90 else 0x80
      let hi := if c = 0xF4 then 0x8F else 0xBF
      match rest with
      | c1 :: c2 :: c3 :: _ =>
        if lo ≤ c1.toNat ∧ c1.toNat ≤ hi ∧ cont c2 ∧ cont c3 then 4 else 1
      | _ => 1
    else 1

/-- The loop of `utf8.RuneCountInString`: one rune per step, `fuel` bounds the
number of steps. -/
def runeCountLoop : Nat → GoString → Nat
  | 0, _ => 0
  | fuel + 1, s => if s = [] then 0 else 1 + runeCountLoop fuel (s.drop (runeSize s))

/-- Go's `utf8.RuneCountInString`: the number of runes of a string, every
byte that is not part of a well-formed encoding counting as one rune.  Each
step consumes at least one byte, so `len(s)` steps are enough. -/
def runeCountInString (s : GoString) : Nat := runeCountLoop s.length s

/-- Go's `fmt.Sprintf("%-*s %s", padding, s, value)` on an `int` and two
strings.  A width argument above 1000000 in magnitude is refused: `fmt`
writes `%!(BADWIDTH)` and formats `s` without a width.  A negative width is
its absolute value with the `-` flag.  The width counts runes
(`utf8.RuneCountInString`), and `s` is padded on the right with spaces when it
has fewer runes than the width; it is never truncated. -/
def sprintfPadded (padding : Int) (s value : GoString) : GoString :=
  if padding > 1000000 ∨ padding < -1000000 then
    str "%!(BADWIDTH)" ++ s ++ str " " ++ value
  else
    let wid := if padding < 0 then -padding else padding
    let width := wid - (runeCountInString s : Int)
    let pad : GoString := if width ≤ 0 then [] else List.replicate width.toNat 32
    s ++ pad ++ str " " ++ value

/-! ## Constants of `banner.go` -/

def ColorReset : GoString := str "\x1b[0m"
def ColorRed : GoString := str "\x1b[31m"
def ColorGreen : GoString := str "\x1b[32m"
def ColorYellow : GoString := str "\x1b[33m"
def ColorBlue : GoString := str "\x1b[34m"
def ColorPurple : GoString := str "\x1b[35m"
def ColorCyan : GoString := str "\x1b[36m"
def ColorWhite : GoString := str "\x1b[37m"
def ColorBold : GoString := str "\x1b[1m"
def ColorBrightGreen : GoString := str "\x1b[92m"
def ColorPrimaryGreen : GoString := str "\x1b[38;2;0;255;0m"

/-- The Go type `Style` is a defined string type: any string is a value. -/
abbrev Style := GoString

def StyleSimple : Style := str "simple"
def StyleDouble : Style := str "double"
def StyleBold : Style := str "bold"
def StyleRound : Style := str "round"
def StyleASCII : Style := str "ascii"

structure BorderChars where
  TopLeft : GoString
  TopRight : GoString
  BottomLeft : GoString
  BottomRight : GoString
  Horizontal : GoString
  Vertical : GoString
  LeftJoin : GoString
  RightJoin : GoString
  deriving DecidableEq, Repr

def simpleChars : BorderChars :=
  { TopLeft := str "┌", TopRight := str "┐", BottomLeft := str "└", BottomRight := str "┘",
    Horizontal := str "─", Vertical := str "│", LeftJoin := str "├", RightJoin := str "┤" }

def doubleChars : BorderChars :=
  { TopLeft := str "╔", TopRight := str "╗", BottomLeft := str "╚", BottomRight := str "╝",
    Horizontal := str "═", Vertical := str "║", LeftJoin := str "╠", RightJoin := str "╣" }

def boldChars : BorderChars :=
  { TopLeft := str "┏", TopRight := str "┓", BottomLeft := str "┗", BottomRight := str "┛",
    Horizontal := str "━", Vertical := str "┃", LeftJoin := str "┣", RightJoin := str "┫" }

def roundChars : BorderChars :=
  { TopLeft := str "╭", TopRight := str "╮", BottomLeft := str "╰", BottomRight := str "╯",
    Horizontal := str "─", Vertical := str "│", LeftJoin := str "├", RightJoin := str "┤" }

def asciiChars : BorderChars :=
  { TopLeft := str "+", TopRight := str "+", BottomLeft := str "+", BottomRight := str "+",
    Horizontal := str "-", Vertical := str "|", LeftJoin := str "+", RightJoin := str "+" }

/-- The map `borderStyles`; `none` is a key that is not in the map. -/
def borderStyles (style : Style) : Option BorderChars :=
  if style = StyleSimple then some simpleChars
  else if style = StyleDouble then some doubleChars
  else if style = StyleBold then some boldChars
  else if style = StyleRound then some roundChars
  else if style = StyleASCII then some asciiChars
  else none

/-- The Go type `Alignment` is a defined `int` type. -/
abbrev Alignment := Int

def AlignLeft : Alignment := 0
def AlignCenter : Alignment := 1
def AlignRight : Alignment := 2

/-! ## The renderer -/

structure Banner where
  Width : Int
  Style : Style
  BorderColor : GoString
  TextColor : GoString
  Bold : Bool
  borders : BorderChars
  deriving DecidableEq, Repr

/-- `New()`.  Indexing the map with a missing key would read the zero value
of `BorderChars`; `StyleSimple` is a key of the map. -/
def New : Banner :=
  { Width := 80
    Style := StyleSimple
    BorderColor := ColorPrimaryGreen
    TextColor := []
    Bold := false
    borders := (borderStyles StyleSimple).getD ⟨[], [], [], [], [], [], [], []⟩ }

namespace Banner

def SetStyle (b : Banner) (style : banner.Style) : Banner :=
  match borderStyles style with
  | some borders => { b with Style := style, borders := borders }
  | none => b

def SetWidth (b : Banner) (width : Int) : Banner := { b with Width := width }

def SetBorderColor (b : Banner) (color : GoString) : Banner := { b with BorderColor := color }

def SetTextColor (b : Banner) (color : GoString) : Banner := { b with TextColor := color }

def SetBold (b : Banner) (bold : Bool) : Banner := { b with Bold := bold }

/-- `printColorized`: `fmt.Printf("%s%s%s\n", ...)` or `fmt.Println(text)`;
the result is what is written. -/
def printColorized (_b : Banner) (color text : GoString) : GoString :=
  if color ≠ [] then color ++ text ++ ColorReset ++ str "\n"
  else text ++ str "\n"

def applyColor (_b : Banner) (color text : GoString) : GoString :=
  if color ≠ [] then color ++ text ++ ColorReset
  else text

def PrintTopLine (b : Banner) : Except RuntimeError GoString := do
  let innerWidth := wrapInt (b.Width - 2)
  let fill ← stringsRepeat b.borders.Horizontal innerWidth
  let line := b.borders.TopLeft ++ fill ++ b.borders.TopRight
  pure (b.printColorized b.BorderColor line)

def PrintBottomLine (b : Banner) : Except RuntimeError GoString := do
  let innerWidth := wrapInt (b.Width - 2)
  let fill ← stringsRepeat b.borders.Horizontal innerWidth
  let line := b.borders.BottomLeft ++ fill ++ b.borders.BottomRight
  pure (b.printColorized b.BorderColor line)

def PrintSeparatorLine (b : Banner) : Except RuntimeError GoString := do
  let innerWidth := wrapInt (b.Width - 2)
  let fill ← stringsRepeat b.borders.Horizontal innerWidth
  let line := b.borders.LeftJoin ++ fill ++ b.borders.RightJoin
  pure (b.printColorized b.BorderColor line)

def centerText (_b : Banner) (text : GoString) (width : Int) : Except RuntimeError GoString :=
  if len text ≥ width then sliceTo text width
  else do
    let totalPadding := wrapInt (width - len text)
    let leftPad := Int.tdiv totalPadding 2
    let rightPad := wrapInt (totalPadding - leftPad)
    let l ← stringsRepeat (str " ") leftPad
    let r ← stringsRepeat (str " ") rightPad
    pure (l ++ text ++ r)

def leftAlignText (_b : Banner) (text : GoString) (width : Int) : Except RuntimeError GoString :=
  if len text ≥ width then sliceTo text width
  else do
    let pad ← stringsRepeat (str " ") (wrapInt (width - len text))
    pure (text ++ pad)

def rightAlignText (_b : Banner) (text : GoString) (width : Int) : Except RuntimeError GoString :=
  if len text ≥ width then sliceTo text width
  else do
    let pad ← stringsRepeat (str " ") (wrapInt (width - len text))
    pure (pad ++ text)

def PrintTextWithAlignment (b : Banner) (text : GoString) (align : Alignment) :
    Except RuntimeError GoString := do
  let innerWidth := wrapInt (b.Width - 4)
  let text ← (if len text > innerWidth then sliceTo text innerWidth else pure text)
  let paddedText ←
    (if align = AlignCenter then b.centerText text innerWidth
     else if align = AlignRight then b.rightAlignText text innerWidth
     else b.leftAlignText text innerWidth)
  let borderPrefix := b.applyColor b.BorderColor b.borders.Vertical
  let borderSuffix := b.applyColor b.BorderColor b.borders.Vertical
  let textColor := if b.Bold then ColorBold ++ b.TextColor else b.TextColor
  let textContent := b.applyColor textColor (str " " ++ paddedText ++ str " ")
  pure (borderPrefix ++ textContent ++ borderSuffix ++ str "\n")

def PrintText (b : Banner) (text : GoString) : Except RuntimeError GoString :=
  b.PrintTextWithAlignment text AlignLeft

def PrintCenteredText (b : Banner) (text : GoString) : Except RuntimeError GoString :=
  b.PrintTextWithAlignment text AlignCenter

def PrintRightText (b : Banner) (text : GoString) : Except RuntimeError GoString :=
  b.PrintTextWithAlignment text AlignRight

def PrintEmptyLine (b : Banner) : Except RuntimeError GoString :=
  b.PrintText []

def PrintKeyValue (b : Banner) (key value : GoString) (padding : Int) :
    Except RuntimeError GoString :=
  let formatted := sprintfPadded padding (key ++ str ":") value
  b.PrintText formatted

end Banner

/-- `PrintSimple`: the output is what the calls write, in call order. -/
def PrintSimple (title subtitle : GoString) : Except RuntimeError GoString := do
  let b := New
  let top ← b.PrintTopLine
  let l1 ← (if title ≠ [] then b.PrintCenteredText title else pure [])
  let l2 ← (if subtitle ≠ [] then b.PrintCenteredText subtitle else pure [])
  let bottom ← b.PrintBottomLine
  pure (top ++ l1 ++ l2 ++ bottom)

/-- `PrintColorized`: the output is what the calls write, in call order. -/
def PrintColorized (title subtitle borderColor textColor : GoString) :
    Except RuntimeError GoString := do
  let b := ((New.SetBorderColor borderColor).SetTextColor textColor).SetBold true
  let top ← b.PrintTopLine
  let l1 ← (if title ≠ [] then b.PrintCenteredText title else pure [])
  let l2 ← (if subtitle ≠ [] then b.PrintCenteredText subtitle else pure [])
  let bottom ← b.PrintBottomLine
  pure (top ++ l1 ++ l2 ++ bottom)

/-! ## Specification-side vocabulary

The definitions of this section follow the words of the specification, not
the code; the theorems compare the code with them. -/

/-- A run of `k` space characters (byte `0x20`). -/
def spaces (k : Nat) : GoString := List.replicate k 32

/-- The text cut to its first `n` length units and then padded with spaces to
exactly `n` units: centred (padding `p` split as `p / 2` before and
`p - p / 2` after), flush right, or (any other alignment value) flush left. -/
def alignedText (align : Alignment) (text : GoString) (n : Nat) : GoString :=
  let t := text.take n
  let p := n - t.length
  if align = AlignCenter then spaces (p / 2) ++ t ++ spaces (p - p / 2)
  else if align = AlignRight then spaces p ++ t
  else t ++ spaces p

/-- The border segment of a text line: the vertical glyph in the border
colour. -/
def Banner.borderSegment (b : Banner) : GoString :=
  b.applyColor b.BorderColor b.borders.Vertical

/-- The colour code of the text content: `TextColor`, preceded by the bold
code when `Bold` is set. -/
def Banner.textColorCode (b : Banner) : GoString :=
  if b.Bold then ColorBold ++ b.TextColor else b.TextColor

/-- The content segment of a text line: the aligned text between two padding
spaces, in the text colour. -/
def Banner.contentSegment (b : Banner) (text : GoString) (align : Alignment) : GoString :=
  b.applyColor b.textColorCode (str " " ++ alignedText align text (b.Width - 4).toNat ++ str " ")

/-- A border line as it reaches the output: `L` and a newline, with the
colour code before and the reset code after `L` when a colour is set. -/
def emittedLine (color L : GoString) : GoString :=
  if color = [] then L ++ str "\n" else color ++ L ++ ColorReset ++ str "\n"

/-- The horizontal glyph of a glyph set, `k` times. -/
def horizontalFill (g : BorderChars) (k : Nat) : GoString :=
  (List.replicate k g.Horizontal).flatten

/-- The banners a client builds through the interface of the package:
`New()` followed by any finite sequence of setter calls. -/
inductive Reachable : Banner → Prop where
  | new : Reachable New
  | setStyle (b : Banner) (s : Style) : Reachable b → Reachable (b.SetStyle s)
  | setWidth (b : Banner) (w : Int) : Reachable b → Reachable (b.SetWidth w)
  | setBorderColor (b : Banner) (c : GoString) : Reachable b → Reachable (b.SetBorderColor c)
  | setTextColor (b : Banner) (c : GoString) : Reachable b → Reachable (b.SetTextColor c)
  | setBold (b : Banner) (v : Bool) : Reachable b → Reachable (b.SetBold v)

/-- The number of characters (UTF-8 encoded code points) of a string: the
bytes that are not continuation bytes `10xxxxxx`. -/
def runeCount (s : GoString) : Nat :=
  (s.filter (fun c => decide (c.toNat / 64 ≠ 2))).length

/-- The text of a key-value line in the words of the specification: the key
and a colon, spaces up to `padding` length units when that is shorter, one
space, the value. -/
def keyValueText (key value : GoString) (padding : Int) : GoString :=
  key ++ str ":" ++ spaces (padding - len (key ++ str ":")).toNat ++ str " " ++ value

/-- The lines of a simple banner in the order of the specification: the top
line, the title line if the title is non-empty, the subtitle line if the
subtitle is non-empty, the bottom line. -/
def bannerLines (title subtitle top titleLine subtitleLine bottom : GoString) :
    List GoString :=
  [top] ++ (if title = [] then [] else [titleLine])
    ++ (if subtitle = [] then [] else [subtitleLine]) ++ [bottom]

/-! ## Auxiliary lemmas -/

theorem wrapInt_of_range {x : Int} (h1 : minInt ≤ x) (h2 : x ≤ maxInt) : wrapInt x = x := by
  unfold wrapInt
  unfold minInt at h1
  unfold maxInt at h2
  omega

theorem len_nonneg (s : GoString) : 0 ≤ len s := by
  unfold len
  omega

theorem stringsRepeat_of_nonneg (s : GoString) {n : Int} (h : 0 ≤ n) :
    stringsRepeat s n = .ok (List.replicate n.toNat s).flatten := by
  unfold stringsRepeat
  rw [if_neg (by omega)]

theorem stringsRepeat_of_neg (s : GoString) {n : Int} (h : n < 0) :
    stringsRepeat s n = .error .negativeRepeatCount := by
  unfold stringsRepeat
  rw [if_pos h]

theorem replicate_space_flatten (k : Nat) :
    (List.replicate k (str " ")).flatten = spaces k := by
  induction k with
  | zero => rfl
  | succ k ih =>
    rw [List.replicate_succ, List.flatten_cons, ih]
    rfl

theorem spaces_length (k : Nat) : (spaces k).length = k := by
  simp [spaces]

theorem sliceTo_of_le (s : GoString) {n : Int} (h0 : 0 ≤ n) (h : n ≤ len s) :
    sliceTo s n = .ok (s.take n.toNat) := by
  unfold sliceTo
  rw [if_pos ⟨h0, h⟩]

theorem sliceTo_of_neg (s : GoString) {n : Int} (h : n < 0) :
    sliceTo s n = .error .sliceBoundsOutOfRange := by
  unfold sliceTo
  rw [if_neg (by omega)]

theorem centerText_of_nonneg (b : Banner) (text : GoString) {width : Int}
    (h0 : 0 ≤ width) (hr : width ≤ maxInt) :
    b.centerText text width = .ok (alignedText AlignCenter text width.toNat) := by
  have hl := len_nonneg text
  unfold Banner.centerText alignedText
  by_cases h : len text ≥ width
  · rw [if_pos h, sliceTo_of_le text h0 h]
    have hlen : (text.take width.toNat).length = width.toNat := by
      rw [List.length_take]
      unfold len at h
      omega
    simp [hlen, spaces]
  · rw [if_neg h]
    have hlt : text.length < width.toNat := by
      unfold len at h
      omega
    have htake : text.take width.toNat = text := List.take_of_length_le (by omega)
    have hw1 : wrapInt (width - len text) = width - len text :=
      wrapInt_of_range (by unfold minInt; omega) (by omega)
    have hd : Int.tdiv (width - len text) 2 = (width - len text) / 2 :=
      Int.tdiv_eq_ediv (by omega) (by omega)
    have hw2 : wrapInt (width - len text - (width - len text) / 2)
        = width - len text - (width - len text) / 2 :=
      wrapInt_of_range (by unfold minInt; omega) (by omega)
    have hp1 : ((width - len text) / 2).toNat = (width.toNat - text.length) / 2 := by
      unfold len
      omega
    have hp2 : (width - len text - (width - len text) / 2).toNat
        = (width.toNat - text.length) - (width.toNat - text.length) / 2 := by
      unfold len
      omega
    simp only [hw1, hd, hw2]
    rw [stringsRepeat_of_nonneg _ (by omega), stringsRepeat_of_nonneg _ (by omega)]
    simp only [replicate_space_flatten, hp1, hp2, htake]
    rfl

theorem leftAlignText_of_nonneg (b : Banner) (text : GoString) {width : Int}
    (h0 : 0 ≤ width) (hr : width ≤ maxInt) :
    b.leftAlignText text width = .ok (alignedText AlignLeft text width.toNat) := by
  have hl := len_nonneg text
  unfold Banner.leftAlignText alignedText
  by_cases h : len text ≥ width
  · rw [if_pos h, sliceTo_of_le text h0 h]
    have hlen : (text.take width.toNat).length = width.toNat := by
      rw [List.length_take]
      unfold len at h
      omega
    simp [hlen, spaces, AlignLeft, AlignCenter, AlignRight]
  · rw [if_neg h]
    have hlt : text.length < width.toNat := by
      unfold len at h
      omega
    have htake : text.take width.toNat = text := List.take_of_length_le (by omega)
    have hw1 : wrapInt (width - len text) = width - len text :=
      wrapInt_of_range (by unfold minInt; omega) (by omega)
    have hp : (width - len text).toNat = width.toNat - text.length := by
      unfold len
      omega
    rw [hw1, stringsRepeat_of_nonneg _ (by omega)]
    simp only [replicate_space_flatten, hp, htake]
    rfl

theorem rightAlignText_of_nonneg (b : Banner) (text : GoString) {width : Int}
    (h0 : 0 ≤ width) (hr : width ≤ maxInt) :
    b.rightAlignText text width = .ok (alignedText AlignRight text width.toNat) := by
  have hl := len_nonneg text
  unfold Banner.rightAlignText alignedText
  by_cases h : len text ≥ width
  · rw [if_pos h, sliceTo_of_le text h0 h]
    have hlen : (text.take width.toNat).length = width.toNat := by
      rw [List.length_take]
      unfold len at h
      omega
    simp [hlen, spaces, AlignLeft, AlignCenter, AlignRight]
  · rw [if_neg h]
    have hlt : text.length < width.toNat := by
      unfold len at h
      omega
    have htake : text.take width.toNat = text := List.take_of_length_le (by omega)
    have hw1 : wrapInt (width - len text) = width - len text :=
      wrapInt_of_range (by unfold minInt; omega) (by omega)
    have hp : (width - len text).toNat = width.toNat - text.length := by
      unfold len
      omega
    rw [hw1, stringsRepeat_of_nonneg _ (by omega)]
    simp only [replicate_space_flatten, hp, htake]
    rfl

theorem alignedText_length (align : Alignment) (text : GoString) (n : Nat) :
    (alignedText align text n).length = n := by
  unfold alignedText
  have h : (text.take n).length ≤ n := by
    rw [List.length_take]
    omega
  simp only []
  split
  · simp only [List.length_append, spaces_length]
    omega
  · split
    · simp only [List.length_append, spaces_length]
      omega
    · simp only [List.length_append, spaces_length]
      omega

theorem alignedText_take (align : Alignment) (text : GoString) (n : Nat) :
    alignedText align (text.take n) n = alignedText align text n := by
  unfold alignedText
  simp only [List.take_take, Nat.min_self]

/-! ## Text lines -/

theorem printTextWithAlignment_of_ge (b : Banner) (text : GoString) (align : Alignment)
    (hw : 4 ≤ b.Width) (hr : b.Width ≤ maxInt) :
    b.PrintTextWithAlignment text align
      = .ok (b.borderSegment ++ b.contentSegment text align ++ b.borderSegment ++ str "\n") := by
  have hl := len_nonneg text
  have hwrap : wrapInt (b.Width - 4) = b.Width - 4 :=
    wrapInt_of_range (by unfold minInt; omega) (by omega)
  have h0 : (0 : Int) ≤ b.Width - 4 := by omega
  have hr4 : b.Width - 4 ≤ maxInt := by omega
  have hcut : (if len text > b.Width - 4 then sliceTo text (b.Width - 4) else pure text)
      = (.ok (text.take (b.Width - 4).toNat) : Except RuntimeError GoString) := by
    by_cases h : len text > b.Width - 4
    · rw [if_pos h, sliceTo_of_le text h0 (by omega)]
    · rw [if_neg h, List.take_of_length_le (by unfold len at h; omega)]
      rfl
  have hal : (if align = AlignCenter then
        b.centerText (text.take (b.Width - 4).toNat) (b.Width - 4)
      else if align = AlignRight then
        b.rightAlignText (text.take (b.Width - 4).toNat) (b.Width - 4)
      else b.leftAlignText (text.take (b.Width - 4).toNat) (b.Width - 4))
      = .ok (alignedText align text (b.Width - 4).toNat) := by
    rw [centerText_of_nonneg b _ h0 hr4, rightAlignText_of_nonneg b _ h0 hr4,
      leftAlignText_of_nonneg b _ h0 hr4]
    simp only [alignedText_take]
    by_cases hc : align = AlignCenter
    · rw [if_pos hc, hc]
    · rw [if_neg hc]
      by_cases hR : align = AlignRight
      · rw [if_pos hR, hR]
      · rw [if_neg hR]
        unfold alignedText
        simp only [if_neg hc, if_neg hR]
        rw [if_neg (by decide), if_neg (by decide)]
  unfold Banner.PrintTextWithAlignment
  simp only [hwrap, hcut]
  show (do
    let paddedText ← (if align = AlignCenter then
        b.centerText (text.take (b.Width - 4).toNat) (b.Width - 4)
      else if align = AlignRight then
        b.rightAlignText (text.take (b.Width - 4).toNat) (b.Width - 4)
      else b.leftAlignText (text.take (b.Width - 4).toNat) (b.Width - 4))
    pure (b.applyColor b.BorderColor b.borders.Vertical
      ++ b.applyColor (if b.Bold then ColorBold ++ b.TextColor else b.TextColor)
          (str " " ++ paddedText ++ str " ")
      ++ b.applyColor b.BorderColor b.borders.Vertical ++ str "\n")) = _
  rw [hal]
  rfl

/-- C1: for every banner with `Width ≥ 4` (a Go `int`, so `Width ≤ maxInt`),
every text and every alignment, `PrintTextWithAlignment` emits exactly the
line `applyColor(BorderColor, Vertical) + applyColor(tc, " " + aligned + " ")
+ applyColor(BorderColor, Vertical) + "\n"`, where `aligned` is the text
truncated to `Width-4` length units and aligned to exactly `Width-4` units and
`tc` is `TextColor`, preceded by `ColorBold` when `Bold` is set; with `Bold`
set and an empty `TextColor` the content is `ColorBold + " " + aligned + " " +
ColorReset`; the border segment is the same whatever `TextColor` and `Bold`
are, and the content segment the same whatever `BorderColor` is. -/
theorem C1_printTextWithAlignment_line (b : Banner) (text : GoString) (align : Alignment)
    (hw : 4 ≤ b.Width) (hr : b.Width ≤ maxInt) :
    (alignedText align text (b.Width - 4).toNat).length = (b.Width - 4).toNat ∧
    b.PrintTextWithAlignment text align
      = .ok (b.applyColor b.BorderColor b.borders.Vertical
          ++ b.applyColor (if b.Bold then ColorBold ++ b.TextColor else b.TextColor)
              (str " " ++ alignedText align text (b.Width - 4).toNat ++ str " ")
          ++ b.applyColor b.BorderColor b.borders.Vertical ++ str "\n") ∧
    (b.Bold = true → b.TextColor = [] →
      b.applyColor (if b.Bold then ColorBold ++ b.TextColor else b.TextColor)
          (str " " ++ alignedText align text (b.Width - 4).toNat ++ str " ")
        = ColorBold ++ (str " " ++ alignedText align text (b.Width - 4).toNat ++ str " ")
            ++ ColorReset) ∧
    (∀ (c : GoString) (bold : Bool),
      ((b.SetTextColor c).SetBold bold).borderSegment = b.borderSegment) ∧
    (∀ c : GoString, (b.SetBorderColor c).contentSegment text align
      = b.contentSegment text align) := by
  refine ⟨alignedText_length _ _ _, ?_, ?_, ?_, ?_⟩
  · exact printTextWithAlignment_of_ge b text align hw hr
  · intro hb ht
    have hne : ColorBold ≠ [] := by decide
    simp [Banner.applyColor, hb, ht, hne]
  · intro c bold
    rfl
  · intro c
    rfl

theorem C1_printTextWithAlignment_line_witness :
    (4 : Int) ≤ ((New.SetWidth 20).SetBold true).Width ∧
    ((New.SetWidth 20).SetBold true).Width ≤ maxInt ∧
    ((New.SetWidth 20).SetBold true).PrintTextWithAlignment (str "Hello") AlignCenter
      = .ok (ColorPrimaryGreen ++ str "│" ++ ColorReset
          ++ (ColorBold ++ str "      Hello       " ++ ColorReset)
          ++ (ColorPrimaryGreen ++ str "│" ++ ColorReset) ++ str "\n") :=
  ⟨by decide, by decide,
    (C1_printTextWithAlignment_line ((New.SetWidth 20).SetBold true) (str "Hello") AlignCenter
      (by decide) (by decide)).2.1.trans (congrArg Except.ok (by decide))⟩

/-! ## Border lines -/

theorem borders_of_reachable {b : Banner} (h : Reachable b) :
    borderStyles b.Style = some b.borders := by
  induction h with
  | new => decide
  | setStyle b s _ ih =>
    unfold Banner.SetStyle
    cases hs : borderStyles s with
    | none => exact ih
    | some g => exact hs
  | setWidth b w _ ih => exact ih
  | setBorderColor b c _ ih => exact ih
  | setTextColor b c _ ih => exact ih
  | setBold b v _ ih => exact ih

theorem printColorized_eq (b : Banner) (color L : GoString) :
    b.printColorized color L = emittedLine color L := by
  unfold Banner.printColorized emittedLine
  by_cases h : color = []
  · rw [if_neg (by simp [h]), if_pos h]
  · rw [if_pos h, if_neg h]

theorem printTopLine_of_ge (b : Banner) (hw : 2 ≤ b.Width) (hr : b.Width ≤ maxInt) :
    b.PrintTopLine = .ok (emittedLine b.BorderColor
      (b.borders.TopLeft ++ horizontalFill b.borders (b.Width - 2).toNat ++ b.borders.TopRight)) := by
  have hwrap : wrapInt (b.Width - 2) = b.Width - 2 :=
    wrapInt_of_range (by unfold minInt; omega) (by omega)
  unfold Banner.PrintTopLine
  simp only [hwrap]
  rw [stringsRepeat_of_nonneg _ (by omega), ← printColorized_eq b]
  rfl

theorem printBottomLine_of_ge (b : Banner) (hw : 2 ≤ b.Width) (hr : b.Width ≤ maxInt) :
    b.PrintBottomLine = .ok (emittedLine b.BorderColor
      (b.borders.BottomLeft ++ horizontalFill b.borders (b.Width - 2).toNat
        ++ b.borders.BottomRight)) := by
  have hwrap : wrapInt (b.Width - 2) = b.Width - 2 :=
    wrapInt_of_range (by unfold minInt; omega) (by omega)
  unfold Banner.PrintBottomLine
  simp only [hwrap]
  rw [stringsRepeat_of_nonneg _ (by omega), ← printColorized_eq b]
  rfl

theorem printSeparatorLine_of_ge (b : Banner) (hw : 2 ≤ b.Width) (hr : b.Width ≤ maxInt) :
    b.PrintSeparatorLine = .ok (emittedLine b.BorderColor
      (b.borders.LeftJoin ++ horizontalFill b.borders (b.Width - 2).toNat
        ++ b.borders.RightJoin)) := by
  have hwrap : wrapInt (b.Width - 2) = b.Width - 2 :=
    wrapInt_of_range (by unfold minInt; omega) (by omega)
  unfold Banner.PrintSeparatorLine
  simp only [hwrap]
  rw [stringsRepeat_of_nonneg _ (by omega), ← printColorized_eq b]
  rfl

/-- C2: for every banner with `Width ≥ 2` (a Go `int`, so `Width ≤ maxInt`),
`PrintTopLine`, `PrintBottomLine` and `PrintSeparatorLine` each emit exactly
one line built from `L = left + (Horizontal repeated Width-2 times) + right`
with `(left, right)` the top corners, the bottom corners and the junctions of
the banner's glyph set; the output is `BorderColor + L + ColorReset + "\n"`
when `BorderColor` is non-empty and `L + "\n"` when it is empty.  For every
banner built by `New()` and the setters the glyph set is the entry of the
glyph table at the banner's current `Style`. -/
theorem C2_border_lines (b : Banner) (hw : 2 ≤ b.Width) (hr : b.Width ≤ maxInt) :
    (Reachable b → borderStyles b.Style = some b.borders) ∧
    b.PrintTopLine = .ok (emittedLine b.BorderColor
      (b.borders.TopLeft ++ horizontalFill b.borders (b.Width - 2).toNat
        ++ b.borders.TopRight)) ∧
    b.PrintBottomLine = .ok (emittedLine b.BorderColor
      (b.borders.BottomLeft ++ horizontalFill b.borders (b.Width - 2).toNat
        ++ b.borders.BottomRight)) ∧
    b.PrintSeparatorLine = .ok (emittedLine b.BorderColor
      (b.borders.LeftJoin ++ horizontalFill b.borders (b.Width - 2).toNat
        ++ b.borders.RightJoin)) ∧
    (∀ L : GoString, b.BorderColor ≠ [] →
      emittedLine b.BorderColor L = b.BorderColor ++ L ++ ColorReset ++ str "\n") ∧
    (∀ L : GoString, b.BorderColor = [] → emittedLine b.BorderColor L = L ++ str "\n") := by
  refine ⟨borders_of_reachable, printTopLine_of_ge b hw hr, printBottomLine_of_ge b hw hr,
    printSeparatorLine_of_ge b hw hr, ?_, ?_⟩
  · intro L h
    unfold emittedLine
    rw [if_neg h]
  · intro L h
    unfold emittedLine
    rw [if_pos h]

theorem C2_border_lines_witness :
    (2 : Int) ≤ ((New.SetStyle StyleDouble).SetWidth 6).Width ∧
    ((New.SetStyle StyleDouble).SetWidth 6).Width ≤ maxInt ∧
    ((New.SetStyle StyleDouble).SetWidth 6).PrintSeparatorLine
      = .ok (ColorPrimaryGreen ++ str "╠════╣" ++ ColorReset ++ str "\n") :=
  ⟨by decide, by decide,
    (C2_border_lines ((New.SetStyle StyleDouble).SetWidth 6)
      (by decide) (by decide)).2.2.2.1.trans (congrArg Except.ok (by decide))⟩

/-! ## Truncation and padding -/

theorem alignedText_of_length_ge (align : Alignment) (text : GoString) (n : Nat)
    (h : n ≤ text.length) : alignedText align text n = text.take n := by
  have hlen : (text.take n).length = n := by
    rw [List.length_take]
    omega
  unfold alignedText
  simp [hlen, spaces]

theorem alignedText_of_length_le (align : Alignment) (text : GoString) (n : Nat)
    (h : text.length ≤ n) :
    alignedText align text n =
      if align = AlignCenter then
        spaces ((n - text.length) / 2) ++ text
          ++ spaces ((n - text.length) - (n - text.length) / 2)
      else if align = AlignRight then spaces (n - text.length) ++ text
      else text ++ spaces (n - text.length) := by
  unfold alignedText
  rw [List.take_of_length_le h]

/-- C3: for every banner with `Width ≥ 4` (a Go `int`, so `Width ≤ maxInt`),
every alignment and every text with `len(text) > Width-4`, the text content
`PrintTextWithAlignment` emits between the two border segments is
`" " + text[:Width-4] + " "` (in the text colour, if one is set): the text is
cut to exactly `Width-4` length units, no padding is added, and the line is
the same for all three alignments. -/
theorem C3_truncation (b : Banner) (text : GoString) (align : Alignment)
    (hw : 4 ≤ b.Width) (hr : b.Width ≤ maxInt) (hlen : len text > b.Width - 4) :
    (text.take (b.Width - 4).toNat).length = (b.Width - 4).toNat ∧
    b.PrintTextWithAlignment text align
      = .ok (b.applyColor b.BorderColor b.borders.Vertical
          ++ b.applyColor (if b.Bold then ColorBold ++ b.TextColor else b.TextColor)
              (str " " ++ text.take (b.Width - 4).toNat ++ str " ")
          ++ b.applyColor b.BorderColor b.borders.Vertical ++ str "\n") ∧
    b.PrintTextWithAlignment text AlignCenter = b.PrintTextWithAlignment text AlignLeft ∧
    b.PrintTextWithAlignment text AlignRight = b.PrintTextWithAlignment text AlignLeft := by
  have hn : (b.Width - 4).toNat ≤ text.length := by
    unfold len at hlen
    omega
  have key : ∀ a : Alignment, b.PrintTextWithAlignment text a
      = .ok (b.applyColor b.BorderColor b.borders.Vertical
          ++ b.applyColor (if b.Bold then ColorBold ++ b.TextColor else b.TextColor)
              (str " " ++ text.take (b.Width - 4).toNat ++ str " ")
          ++ b.applyColor b.BorderColor b.borders.Vertical ++ str "\n") := by
    intro a
    rw [printTextWithAlignment_of_ge b text a hw hr]
    unfold Banner.contentSegment Banner.borderSegment Banner.textColorCode
    rw [alignedText_of_length_ge a text _ hn]
  refine ⟨?_, key align, ?_, ?_⟩
  · rw [List.length_take]
    omega
  · rw [key, key]
  · rw [key, key]

theorem C3_truncation_witness :
    len (str "This is a very long text that should be truncated") = 49 ∧
    (New.SetWidth 10).PrintTextWithAlignment
        (str "This is a very long text that should be truncated") AlignLeft
      = .ok (ColorPrimaryGreen ++ str "│" ++ ColorReset ++ str " This i "
          ++ (ColorPrimaryGreen ++ str "│" ++ ColorReset) ++ str "\n") :=
  ⟨by decide,
    (C3_truncation (New.SetWidth 10) (str "This is a very long text that should be truncated")
      AlignLeft (by decide) (by decide) (by decide)).2.1.trans
      (congrArg Except.ok (by decide))⟩

/-- C4: for every text and every width (a Go `int`, so `width ≤ maxInt`) with
`len(text) < width`, writing `n = width - len(text)`: `leftAlignText` returns
`text` followed by `n` spaces, `rightAlignText` returns `n` spaces followed by
`text`, and `centerText` returns `n/2` spaces, `text`, `n - n/2` spaces; when
`n` is odd the extra space is on the right. -/
theorem C4_padding (b : Banner) (text : GoString) (width : Int)
    (hlt : len text < width) (hr : width ≤ maxInt) :
    b.leftAlignText text width = .ok (text ++ spaces (width - len text).toNat) ∧
    b.rightAlignText text width = .ok (spaces (width - len text).toNat ++ text) ∧
    b.centerText text width
      = .ok (spaces ((width - len text).toNat / 2) ++ text
          ++ spaces ((width - len text).toNat - (width - len text).toNat / 2)) ∧
    ((width - len text).toNat % 2 = 1 →
      (width - len text).toNat - (width - len text).toNat / 2
        = (width - len text).toNat / 2 + 1) := by
  have hl := len_nonneg text
  have h0 : 0 ≤ width := by omega
  have hle : text.length ≤ width.toNat := by
    unfold len at hlt
    omega
  have hn : (width - len text).toNat = width.toNat - text.length := by
    unfold len
    omega
  rw [leftAlignText_of_nonneg b text h0 hr, rightAlignText_of_nonneg b text h0 hr,
    centerText_of_nonneg b text h0 hr, hn]
  simp only [alignedText_of_length_le _ text _ hle]
  refine ⟨?_, ?_, ?_, ?_⟩
  · rw [if_neg (by decide), if_neg (by decide)]
  · rw [if_neg (by decide), if_pos trivial]
  · rw [if_pos trivial]
  · omega

theorem C4_padding_witness :
    New.centerText (str "Hello") 10 = .ok (str "  Hello   ") ∧
    New.leftAlignText (str "Hello") 10 = .ok (str "Hello     ") ∧
    New.rightAlignText (str "Hello") 10 = .ok (str "     Hello") :=
  have h := C4_padding New (str "Hello") 10 (by decide) (by decide)
  ⟨h.2.2.1.trans (congrArg Except.ok (by decide)),
   h.1.trans (congrArg Except.ok (by decide)),
   h.2.1.trans (congrArg Except.ok (by decide))⟩

/-! ## The default renderer -/

/-- C5 (evaluation of the code): `New()` has `Width = 80`, `Style =
StyleSimple`, `TextColor = ""` and `Bold = false`, but its `BorderColor` is
`ColorPrimaryGreen`, not the empty string. -/
theorem C5_new_fields :
    New.Width = 80 ∧ New.Style = StyleSimple ∧ New.TextColor = [] ∧ New.Bold = false ∧
    New.BorderColor = ColorPrimaryGreen ∧ New.BorderColor ≠ [] := by
  decide

/-- C6 (evaluation of the code): at width 10 the top, bottom and separator
lines of `New().SetWidth(10)` are wrapped in the default border colour, so
the top line is not exactly `"┌────────┐\n"`; with the border colour cleared
it is. -/
theorem C6_default_border_lines :
    (New.SetWidth 10).PrintTopLine
      = .ok (ColorPrimaryGreen ++ str "┌────────┐" ++ ColorReset ++ str "\n") ∧
    (New.SetWidth 10).PrintBottomLine
      = .ok (ColorPrimaryGreen ++ str "└────────┘" ++ ColorReset ++ str "\n") ∧
    (New.SetWidth 10).PrintSeparatorLine
      = .ok (ColorPrimaryGreen ++ str "├────────┤" ++ ColorReset ++ str "\n") ∧
    (New.SetWidth 10).PrintTopLine ≠ .ok (str "┌────────┐\n") ∧
    ((New.SetWidth 10).SetBorderColor []).PrintTopLine = .ok (str "┌────────┐\n") := by
  refine ⟨?_, ?_, ?_, ?_, ?_⟩
  · exact (printTopLine_of_ge _ (by decide) (by decide)).trans (congrArg Except.ok (by decide))
  · exact (printBottomLine_of_ge _ (by decide) (by decide)).trans
      (congrArg Except.ok (by decide))
  · exact (printSeparatorLine_of_ge _ (by decide) (by decide)).trans
      (congrArg Except.ok (by decide))
  · rw [printTopLine_of_ge _ (by decide) (by decide)]
    intro h
    exact absurd (Except.ok.inj h) (by decide)
  · exact (printTopLine_of_ge _ (by decide) (by decide)).trans (congrArg Except.ok (by decide))

/-- C7 (evaluation of the code): at width 20 the lines `PrintText("Hello")`,
`PrintCenteredText("Hello")` and `PrintRightText("Hello")` emit on
`New().SetWidth(20)` have both border glyphs wrapped in the default border
colour, so the first is not exactly `"│ Hello            │\n"`; with the
border colour cleared it is. -/
theorem C7_default_text_lines :
    (New.SetWidth 20).PrintText (str "Hello")
      = .ok (ColorPrimaryGreen ++ str "│" ++ ColorReset ++ str " Hello            "
          ++ (ColorPrimaryGreen ++ str "│" ++ ColorReset) ++ str "\n") ∧
    (New.SetWidth 20).PrintCenteredText (str "Hello")
      = .ok (ColorPrimaryGreen ++ str "│" ++ ColorReset ++ str "      Hello       "
          ++ (ColorPrimaryGreen ++ str "│" ++ ColorReset) ++ str "\n") ∧
    (New.SetWidth 20).PrintRightText (str "Hello")
      = .ok (ColorPrimaryGreen ++ str "│" ++ ColorReset ++ str "            Hello "
          ++ (ColorPrimaryGreen ++ str "│" ++ ColorReset) ++ str "\n") ∧
    (New.SetWidth 20).PrintText (str "Hello") ≠ .ok (str "│ Hello            │\n") ∧
    ((New.SetWidth 20).SetBorderColor []).PrintText (str "Hello")
      = .ok (str "│ Hello            │\n") := by
  unfold Banner.PrintText Banner.PrintCenteredText Banner.PrintRightText
  refine ⟨?_, ?_, ?_, ?_, ?_⟩
  · exact (printTextWithAlignment_of_ge _ _ _ (by decide) (by decide)).trans
      (congrArg Except.ok (by decide))
  · exact (printTextWithAlignment_of_ge _ _ _ (by decide) (by decide)).trans
      (congrArg Except.ok (by decide))
  · exact (printTextWithAlignment_of_ge _ _ _ (by decide) (by decide)).trans
      (congrArg Except.ok (by decide))
  · rw [printTextWithAlignment_of_ge _ _ _ (by decide) (by decide)]
    intro h
    exact absurd (Except.ok.inj h) (by decide)
  · exact (printTextWithAlignment_of_ge _ _ _ (by decide) (by decide)).trans
      (congrArg Except.ok (by decide))

/-! ## Visible shape of the top line -/

theorem runeCount_append (s t : GoString) : runeCount (s ++ t) = runeCount s + runeCount t := by
  unfold runeCount
  rw [List.filter_append, List.length_append]

theorem runeCount_flatten_replicate (k : Nat) (s : GoString) :
    runeCount (List.replicate k s).flatten = k * runeCount s := by
  induction k with
  | zero => simp [runeCount]
  | succ k ih =>
    rw [List.replicate_succ, List.flatten_cons, runeCount_append, ih]
    ring

theorem setStyle_of_some (b : Banner) {s : Style} {g : BorderChars}
    (h : borderStyles s = some g) : b.SetStyle s = { b with Style := s, borders := g } := by
  unfold Banner.SetStyle
  rw [h]

/-- C8: for every width `w ≥ 2` (a Go `int`, so `w ≤ maxInt`) and each of the
five styles, the line `L` that `PrintTopLine` emits between the colour codes
and before the trailing newline is exactly `w` characters (UTF-8 code points)
long, starts with the `TopLeft` glyph of the style and ends with its
`TopRight` glyph, each one character: ┌/┐, ╔/╗, ┏/┓, ╭/╮, +/+. -/
theorem C8_top_line_shape (b : Banner) (s : Style) (w : Int)
    (hs : s ∈ [StyleSimple, StyleDouble, StyleBold, StyleRound, StyleASCII])
    (hw : 2 ≤ w) (hr : w ≤ maxInt) :
    ∃ (g : BorderChars) (L mid : GoString),
      borderStyles s = some g ∧
      ((b.SetStyle s).SetWidth w).PrintTopLine = .ok (emittedLine b.BorderColor L) ∧
      (runeCount L : Int) = w ∧
      L = g.TopLeft ++ mid ++ g.TopRight ∧
      runeCount g.TopLeft = 1 ∧ runeCount g.TopRight = 1 ∧
      (s, g.TopLeft, g.TopRight) ∈
        [(StyleSimple, str "┌", str "┐"), (StyleDouble, str "╔", str "╗"),
         (StyleBold, str "┏", str "┓"), (StyleRound, str "╭", str "╮"),
         (StyleASCII, str "+", str "+")] := by
  have main : ∀ g : BorderChars, borderStyles s = some g →
      runeCount g.TopLeft = 1 → runeCount g.TopRight = 1 → runeCount g.Horizontal = 1 →
      ((b.SetStyle s).SetWidth w).PrintTopLine
          = .ok (emittedLine b.BorderColor
              (g.TopLeft ++ horizontalFill g (w - 2).toNat ++ g.TopRight)) ∧
        (runeCount (g.TopLeft ++ horizontalFill g (w - 2).toNat ++ g.TopRight) : Int) = w := by
    intro g hg h1 h2 h3
    constructor
    · rw [setStyle_of_some b hg]
      exact printTopLine_of_ge _ hw hr
    · rw [runeCount_append, runeCount_append, h1, h2]
      unfold horizontalFill
      rw [runeCount_flatten_replicate, h3]
      omega
  simp only [List.mem_cons, List.mem_singleton, List.not_mem_nil, or_false] at hs
  rcases hs with h | h | h | h | h
  · subst h
    obtain ⟨m1, m2⟩ := main simpleChars (by decide) (by decide) (by decide) (by decide)
    exact ⟨simpleChars, _, _, by decide, m1, m2, rfl, by decide, by decide, by decide⟩
  · subst h
    obtain ⟨m1, m2⟩ := main doubleChars (by decide) (by decide) (by decide) (by decide)
    exact ⟨doubleChars, _, _, by decide, m1, m2, rfl, by decide, by decide, by decide⟩
  · subst h
    obtain ⟨m1, m2⟩ := main boldChars (by decide) (by decide) (by decide) (by decide)
    exact ⟨boldChars, _, _, by decide, m1, m2, rfl, by decide, by decide, by decide⟩
  · subst h
    obtain ⟨m1, m2⟩ := main roundChars (by decide) (by decide) (by decide) (by decide)
    exact ⟨roundChars, _, _, by decide, m1, m2, rfl, by decide, by decide, by decide⟩
  · subst h
    obtain ⟨m1, m2⟩ := main asciiChars (by decide) (by decide) (by decide) (by decide)
    exact ⟨asciiChars, _, _, by decide, m1, m2, rfl, by decide, by decide, by decide⟩

theorem C8_top_line_shape_witness :
    ∃ (g : BorderChars) (L mid : GoString),
      borderStyles StyleRound = some g ∧
      ((New.SetStyle StyleRound).SetWidth 10).PrintTopLine
        = .ok (emittedLine New.BorderColor L) ∧
      (runeCount L : Int) = 10 ∧
      L = g.TopLeft ++ mid ++ g.TopRight ∧
      runeCount g.TopLeft = 1 ∧ runeCount g.TopRight = 1 ∧
      (StyleRound, g.TopLeft, g.TopRight) ∈
        [(StyleSimple, str "┌", str "┐"), (StyleDouble, str "╔", str "╗"),
         (StyleBold, str "┏", str "┓"), (StyleRound, str "╭", str "╮"),
         (StyleASCII, str "+", str "+")] :=
  C8_top_line_shape New StyleRound 10 (by decide) (by decide) (by decide)

/-! ## Degenerate widths -/

theorem printLines_of_lt (b : Banner) (hlo : minInt + 2 ≤ b.Width) (hw : b.Width < 2) :
    b.PrintTopLine = .error .negativeRepeatCount ∧
    b.PrintBottomLine = .error .negativeRepeatCount ∧
    b.PrintSeparatorLine = .error .negativeRepeatCount := by
  have hwrap : wrapInt (b.Width - 2) = b.Width - 2 :=
    wrapInt_of_range (by omega) (by unfold maxInt; omega)
  unfold Banner.PrintTopLine Banner.PrintBottomLine Banner.PrintSeparatorLine
  simp only [hwrap]
  rw [stringsRepeat_of_neg _ (by omega)]
  exact ⟨rfl, rfl, rfl⟩

/-- C9 (counterexample): at `Width = 1` the three border-line operations do
not complete: `strings.Repeat` panics on the count `-1`, and nothing is
emitted. -/
theorem C9_counterexample :
    (New.SetWidth 1).PrintTopLine = .error .negativeRepeatCount ∧
    (New.SetWidth 1).PrintBottomLine = .error .negativeRepeatCount ∧
    (New.SetWidth 1).PrintSeparatorLine = .error .negativeRepeatCount ∧
    ¬ ∃ out, (New.SetWidth 1).PrintTopLine = .ok out := by
  have h := printLines_of_lt (New.SetWidth 1) (by decide) (by decide)
  refine ⟨h.1, h.2.1, h.2.2, ?_⟩
  rintro ⟨out, hout⟩
  rw [h.1] at hout
  cases hout

/-- C9 (amended): for every banner whose `Width` is less than 2 (and at least
`minInt + 2`, so that `Width - 2` does not wrap around), `PrintTopLine`,
`PrintBottomLine` and `PrintSeparatorLine` fail at run time with the negative
repeat count panic of `strings.Repeat` and emit nothing; the two corner or
junction glyphs with no horizontal fill between them, wrapped in the border
colour if one is set, are what the three operations emit at `Width = 2`. -/
theorem C9_degenerate_border_lines (b : Banner) (hlo : minInt + 2 ≤ b.Width) :
    (b.Width < 2 →
      b.PrintTopLine = .error .negativeRepeatCount ∧
      b.PrintBottomLine = .error .negativeRepeatCount ∧
      b.PrintSeparatorLine = .error .negativeRepeatCount) ∧
    (b.Width = 2 →
      b.PrintTopLine = .ok (emittedLine b.BorderColor (b.borders.TopLeft ++ b.borders.TopRight)) ∧
      b.PrintBottomLine
        = .ok (emittedLine b.BorderColor (b.borders.BottomLeft ++ b.borders.BottomRight)) ∧
      b.PrintSeparatorLine
        = .ok (emittedLine b.BorderColor (b.borders.LeftJoin ++ b.borders.RightJoin))) := by
  constructor
  · intro h
    exact printLines_of_lt b hlo h
  · intro h
    have hw : 2 ≤ b.Width := by omega
    have hr : b.Width ≤ maxInt := by
      unfold maxInt
      omega
    have hf : horizontalFill b.borders (b.Width - 2).toNat = [] := by
      rw [h]
      rfl
    have e1 := printTopLine_of_ge b hw hr
    have e2 := printBottomLine_of_ge b hw hr
    have e3 := printSeparatorLine_of_ge b hw hr
    rw [hf, List.append_nil] at e1 e2 e3
    exact ⟨e1, e2, e3⟩

theorem C9_degenerate_border_lines_witness :
    (New.SetWidth 0).PrintTopLine = .error .negativeRepeatCount ∧
    (New.SetWidth (-5)).PrintSeparatorLine = .error .negativeRepeatCount ∧
    (New.SetWidth 2).PrintBottomLine
      = .ok (ColorPrimaryGreen ++ str "└┘" ++ ColorReset ++ str "\n") :=
  ⟨((C9_degenerate_border_lines (New.SetWidth 0) (by decide)).1 (by decide)).1,
   ((C9_degenerate_border_lines (New.SetWidth (-5)) (by decide)).1
      (by decide)).2.2,
   (((C9_degenerate_border_lines (New.SetWidth 2) (by decide)).2 rfl).2.1).trans
      (congrArg Except.ok (by decide))⟩

theorem alignText_of_neg (b : Banner) (text : GoString) {width : Int} (h : width < 0) :
    b.centerText text width = .error .sliceBoundsOutOfRange ∧
    b.leftAlignText text width = .error .sliceBoundsOutOfRange ∧
    b.rightAlignText text width = .error .sliceBoundsOutOfRange := by
  have hl := len_nonneg text
  have hge : len text ≥ width := by omega
  unfold Banner.centerText Banner.leftAlignText Banner.rightAlignText
  simp only [if_pos hge, sliceTo_of_neg text h, and_self]

theorem printTextWithAlignment_of_lt (b : Banner) (text : GoString) (align : Alignment)
    (hlo : minInt + 4 ≤ b.Width) (hw : b.Width < 4) :
    b.PrintTextWithAlignment text align = .error .sliceBoundsOutOfRange := by
  have hl := len_nonneg text
  have hwrap : wrapInt (b.Width - 4) = b.Width - 4 :=
    wrapInt_of_range (by omega) (by unfold maxInt; omega)
  unfold Banner.PrintTextWithAlignment
  simp only [hwrap]
  rw [if_pos (by omega), sliceTo_of_neg text (by omega)]
  rfl

/-- C10 (counterexample): at `Width = 3` printing the empty text does not
complete: the slice `text[:-1]` panics and nothing is emitted; and
`centerText`, `leftAlignText` and `rightAlignText` fail in the same way at
width `-1`. -/
theorem C10_counterexample :
    (New.SetWidth 3).PrintTextWithAlignment [] AlignLeft = .error .sliceBoundsOutOfRange ∧
    (¬ ∃ out, (New.SetWidth 3).PrintTextWithAlignment [] AlignLeft = .ok out) ∧
    New.centerText [] (-1) = .error .sliceBoundsOutOfRange ∧
    New.leftAlignText [] (-1) = .error .sliceBoundsOutOfRange ∧
    New.rightAlignText [] (-1) = .error .sliceBoundsOutOfRange := by
  have h := printTextWithAlignment_of_lt (New.SetWidth 3) [] AlignLeft (by decide) (by decide)
  have h2 := alignText_of_neg New [] (show (-1 : Int) < 0 by decide)
  refine ⟨h, ?_, h2.1, h2.2.1, h2.2.2⟩
  rintro ⟨out, hout⟩
  rw [h] at hout
  cases hout

/-- C10 (amended): for every banner whose `Width` is less than 4 (and at least
`minInt + 4`, so that `Width - 4` does not wrap around), every text and every
alignment, `PrintTextWithAlignment` fails at run time with a slice bounds
panic (`text[:Width-4]` with a negative bound) and emits nothing; the line
with an empty aligned text, border glyph + two padding spaces + border glyph,
is what it emits at `Width = 4`.  `centerText`, `leftAlignText` and
`rightAlignText` return the empty string at width 0 and fail with the same
panic at every width below 0. -/
theorem C10_degenerate_text_lines (b : Banner) (text : GoString) (align : Alignment)
    (hlo : minInt + 4 ≤ b.Width) :
    (b.Width < 4 → b.PrintTextWithAlignment text align = .error .sliceBoundsOutOfRange) ∧
    (b.Width = 4 →
      b.PrintTextWithAlignment text align
        = .ok (b.applyColor b.BorderColor b.borders.Vertical
            ++ b.applyColor (if b.Bold then ColorBold ++ b.TextColor else b.TextColor)
                (str " " ++ str " ")
            ++ b.applyColor b.BorderColor b.borders.Vertical ++ str "\n")) ∧
    (b.centerText text 0 = .ok [] ∧ b.leftAlignText text 0 = .ok [] ∧
      b.rightAlignText text 0 = .ok []) ∧
    (∀ width : Int, width < 0 →
      b.centerText text width = .error .sliceBoundsOutOfRange ∧
      b.leftAlignText text width = .error .sliceBoundsOutOfRange ∧
      b.rightAlignText text width = .error .sliceBoundsOutOfRange) := by
  refine ⟨printTextWithAlignment_of_lt b text align hlo, ?_, ?_, ?_⟩
  · intro h
    have hr : b.Width ≤ maxInt := by
      unfold maxInt
      omega
    rw [printTextWithAlignment_of_ge b text align (by omega) hr]
    unfold Banner.contentSegment Banner.borderSegment Banner.textColorCode
    have ha : alignedText align text (b.Width - 4).toNat = [] := by
      rw [h]
      exact List.eq_nil_of_length_eq_zero (alignedText_length align text 0)
    rw [ha]
    rfl
  · have h0 : (0 : Int) ≤ 0 := le_refl 0
    have hr : (0 : Int) ≤ maxInt := by decide
    rw [centerText_of_nonneg b text h0 hr, leftAlignText_of_nonneg b text h0 hr,
      rightAlignText_of_nonneg b text h0 hr]
    have ha : ∀ a : Alignment, alignedText a text (0 : Int).toNat = [] := fun a =>
      List.eq_nil_of_length_eq_zero (alignedText_length a text 0)
    rw [ha, ha, ha]
    exact ⟨rfl, rfl, rfl⟩
  · intro width h
    exact alignText_of_neg b text h

theorem C10_degenerate_text_lines_witness :
    (New.SetWidth 0).PrintTextWithAlignment (str "Hello") AlignCenter
      = .error .sliceBoundsOutOfRange ∧
    (New.SetWidth 4).PrintTextWithAlignment (str "Hello") AlignRight
      = .ok (ColorPrimaryGreen ++ str "│" ++ ColorReset ++ str "  "
          ++ (ColorPrimaryGreen ++ str "│" ++ ColorReset) ++ str "\n") ∧
    New.centerText (str "Hello") 0 = .ok [] :=
  ⟨(C10_degenerate_text_lines (New.SetWidth 0) (str "Hello") AlignCenter (by decide)).1
      (by decide),
   ((C10_degenerate_text_lines (New.SetWidth 4) (str "Hello") AlignRight (by decide)).2.1
      rfl).trans (congrArg Except.ok (by decide)),
   (C10_degenerate_text_lines New (str "Hello") AlignLeft (by decide)).2.2.1.1⟩

/-! ## Styles -/

theorem borderStyles_eq_none {s : Style}
    (h : s ∉ [StyleSimple, StyleDouble, StyleBold, StyleRound, StyleASCII]) :
    borderStyles s = none := by
  simp only [List.mem_cons, List.mem_singleton, List.not_mem_nil, or_false, not_or] at h
  obtain ⟨h1, h2, h3, h4, h5⟩ := h
  unfold borderStyles
  rw [if_neg h1, if_neg h2, if_neg h3, if_neg h4, if_neg h5]

/-- C11: for every banner `b` and every style value `s` that is not one of the
five defined styles, `SetStyle(s)` returns the banner unchanged: `Style`, the
glyph set, `Width`, `BorderColor`, `TextColor` and `Bold` keep their values,
and no error is raised (the setter has no failing path). -/
theorem C11_setStyle_invalid (b : Banner) (s : Style)
    (h : s ∉ [StyleSimple, StyleDouble, StyleBold, StyleRound, StyleASCII]) :
    b.SetStyle s = b ∧
    (b.SetStyle s).Style = b.Style ∧ (b.SetStyle s).borders = b.borders ∧
    (b.SetStyle s).Width = b.Width ∧ (b.SetStyle s).BorderColor = b.BorderColor ∧
    (b.SetStyle s).TextColor = b.TextColor ∧ (b.SetStyle s).Bold = b.Bold := by
  have e : b.SetStyle s = b := by
    unfold Banner.SetStyle
    rw [borderStyles_eq_none h]
  rw [e]
  exact ⟨rfl, rfl, rfl, rfl, rfl, rfl, rfl⟩

theorem C11_setStyle_invalid_witness :
    str "invalid" ∉ [StyleSimple, StyleDouble, StyleBold, StyleRound, StyleASCII] ∧
    (New.SetStyle (str "invalid")).Style = StyleSimple :=
  ⟨by decide, (C11_setStyle_invalid New (str "invalid") (by decide)).2.1⟩

/-! ## Laws of the alignment functions -/

/-- C12: for every text and every width `≥ 0` (a Go `int`, so `width ≤
maxInt`), each of `centerText`, `leftAlignText` and `rightAlignText` returns a
string of exactly `width` length units. -/
theorem C12_aligned_length (b : Banner) (text : GoString) (width : Int)
    (h0 : 0 ≤ width) (hr : width ≤ maxInt) :
    (∃ out, b.centerText text width = .ok out ∧ len out = width) ∧
    (∃ out, b.leftAlignText text width = .ok out ∧ len out = width) ∧
    (∃ out, b.rightAlignText text width = .ok out ∧ len out = width) := by
  have hlen : ∀ a : Alignment, len (alignedText a text width.toNat) = width := by
    intro a
    unfold len
    rw [alignedText_length]
    omega
  exact ⟨⟨_, centerText_of_nonneg b text h0 hr, hlen _⟩,
    ⟨_, leftAlignText_of_nonneg b text h0 hr, hlen _⟩,
    ⟨_, rightAlignText_of_nonneg b text h0 hr, hlen _⟩⟩

theorem C12_aligned_length_witness :
    (∃ out, New.centerText (str "Hello") 10 = .ok out ∧ len out = 10) ∧
    (∃ out, New.leftAlignText (str "Toolong") 4 = .ok out ∧ len out = 4) ∧
    (∃ out, New.rightAlignText (str "Test") 4 = .ok out ∧ len out = 4) :=
  ⟨(C12_aligned_length New (str "Hello") 10 (by decide) (by decide)).1,
   (C12_aligned_length New (str "Toolong") 4 (by decide) (by decide)).2.1,
   (C12_aligned_length New (str "Test") 4 (by decide) (by decide)).2.2⟩

/-- C13 (counterexample): `centerText("Hello", 10)` is `"  Hello   "`, two
spaces before and three after the text, and no split of it into `l` spaces,
the text and `r` spaces has `l - r` equal to 0 or 1. -/
theorem C13_counterexample :
    New.centerText (str "Hello") 10 = .ok (spaces 2 ++ str "Hello" ++ spaces 3) ∧
    ¬ ∃ l r : Nat, New.centerText (str "Hello") 10 = .ok (spaces l ++ str "Hello" ++ spaces r) ∧
        ((l : Int) - r = 0 ∨ (l : Int) - r = 1) := by
  have e : New.centerText (str "Hello") 10 = .ok (spaces 2 ++ str "Hello" ++ spaces 3) :=
    (centerText_of_nonneg New (str "Hello") (by decide) (by decide)).trans
      (congrArg Except.ok (by decide))
  refine ⟨e, ?_⟩
  rintro ⟨l, r, h, hd⟩
  rw [e] at h
  have h2 := Except.ok.inj h
  have hlen := congrArg List.length h2
  simp only [List.length_append, spaces_length] at hlen
  have h5 : (str "Hello").length = 5 := by decide
  rw [h5] at hlen
  have hl : l = 3 := by omega
  have hr : r = 2 := by omega
  subst hl
  subst hr
  exact absurd h2 (by decide)

/-- C13 (amended): for every text and width (a Go `int`, so `width ≤ maxInt`)
with `len(text) < width`, `centerText(text, width)` is `l` spaces, the text
and `r` spaces with `l = floor(n / 2)` and `l + r = n = width - len(text)`;
trailing pad − leading pad is 0 or 1 (`r - l`, not `l - r`): `r = l` when `n`
is even and `r = l + 1` when `n` is odd, so the trailing pad is never the
smaller one. -/
theorem C13_center_split (b : Banner) (text : GoString) (width : Int)
    (hlt : len text < width) (hr : width ≤ maxInt) :
    ∃ l r : Nat,
      b.centerText text width = .ok (spaces l ++ text ++ spaces r) ∧
      (l : Int) = (width - len text) / 2 ∧
      (l : Int) + r = width - len text ∧
      ((r : Int) - l = 0 ∨ (r : Int) - l = 1) ∧
      l ≤ r ∧
      ((width - len text) % 2 = 0 → r = l) ∧
      ((width - len text) % 2 = 1 → r = l + 1) := by
  have hl := len_nonneg text
  have h0 : 0 ≤ width := by omega
  have hle : text.length ≤ width.toNat := by
    unfold len at hlt
    omega
  refine ⟨(width.toNat - text.length) / 2,
    (width.toNat - text.length) - (width.toNat - text.length) / 2, ?_, ?_, ?_, ?_, ?_, ?_, ?_⟩
  · rw [centerText_of_nonneg b text h0 hr, alignedText_of_length_le _ text _ hle,
      if_pos rfl]
  all_goals
    unfold len at *
    omega

theorem C13_center_split_witness :
    ∃ l r : Nat,
      New.centerText (str "Hello") 10 = .ok (spaces l ++ str "Hello" ++ spaces r) ∧
      (l : Int) = (10 - len (str "Hello")) / 2 ∧
      (l : Int) + r = 10 - len (str "Hello") ∧
      ((r : Int) - l = 0 ∨ (r : Int) - l = 1) ∧
      l ≤ r ∧
      ((10 - len (str "Hello")) % 2 = 0 → r = l) ∧
      ((10 - len (str "Hello")) % 2 = 1 → r = l + 1) :=
  C13_center_split New (str "Hello") 10 (by decide) (by decide)

/-- C14: truncation law: for every width `≥ 0` and every text with
`len(text) > width`, `centerText(text, width)` is `text[:width]`, the first
`width` length units of the text with no padding; the same holds for
`leftAlignText` and `rightAlignText`. -/
theorem C14_truncation_law (b : Banner) (text : GoString) (width : Int)
    (h0 : 0 ≤ width) (hgt : len text > width) :
    sliceTo text width = .ok (text.take width.toNat) ∧
    len (text.take width.toNat) = width ∧
    b.centerText text width = .ok (text.take width.toNat) ∧
    b.leftAlignText text width = .ok (text.take width.toNat) ∧
    b.rightAlignText text width = .ok (text.take width.toNat) := by
  have hge : len text ≥ width := by omega
  have hs := sliceTo_of_le text h0 (show width ≤ len text by omega)
  refine ⟨hs, ?_, ?_, ?_, ?_⟩
  · unfold len at *
    rw [List.length_take]
    omega
  · unfold Banner.centerText
    rw [if_pos hge, hs]
  · unfold Banner.leftAlignText
    rw [if_pos hge, hs]
  · unfold Banner.rightAlignText
    rw [if_pos hge, hs]

theorem C14_truncation_law_witness :
    New.centerText (str "Toolong") 4 = .ok (str "Tool") ∧
    New.leftAlignText (str "Toolong") 4 = .ok (str "Tool") ∧
    New.rightAlignText (str "Toolong") 4 = .ok (str "Tool") :=
  have h := C14_truncation_law New (str "Toolong") 4 (by decide) (by decide)
  ⟨h.2.2.1.trans (congrArg Except.ok (by decide)),
   h.2.2.2.1.trans (congrArg Except.ok (by decide)),
   h.2.2.2.2.trans (congrArg Except.ok (by decide))⟩

theorem centerText_of_len_eq (b : Banner) (text : GoString) {width : Int}
    (h : len text = width) : b.centerText text width = .ok text := by
  have hl := len_nonneg text
  unfold Banner.centerText
  rw [if_pos (by omega), sliceTo_of_le text (by omega) (by omega),
    List.take_of_length_le (by unfold len at h; omega)]

/-- C15: `centerText` is idempotent: for every text and every width `≥ 0` (a
Go `int`, so `width ≤ maxInt`), `centerText(text, width)` returns a string
`out` with `centerText(out, width) = out`; and every text of exactly `width`
length units is returned unchanged. -/
theorem C15_center_idempotent (b : Banner) (text : GoString) (width : Int)
    (h0 : 0 ≤ width) (hr : width ≤ maxInt) :
    (∃ out, b.centerText text width = .ok out ∧ b.centerText out width = .ok out) ∧
    (b.centerText text width >>= fun out => b.centerText out width)
      = b.centerText text width ∧
    (len text = width → b.centerText text width = .ok text) := by
  have e := centerText_of_nonneg b text h0 hr
  have hlen : len (alignedText AlignCenter text width.toNat) = width := by
    unfold len
    rw [alignedText_length]
    omega
  have e2 := centerText_of_len_eq b (alignedText AlignCenter text width.toNat) hlen
  refine ⟨⟨_, e, e2⟩, ?_, fun h => centerText_of_len_eq b text h⟩
  rw [e]
  exact e2

theorem C15_center_idempotent_witness :
    New.centerText (str "Test") 4 = .ok (str "Test") ∧
    (New.centerText (str "Hello") 10 >>= fun out => New.centerText out 10)
      = New.centerText (str "Hello") 10 :=
  ⟨(C15_center_idempotent New (str "Test") 4 (by decide) (by decide)).2.2 (by decide),
   (C15_center_idempotent New (str "Hello") 10 (by decide) (by decide)).2.1⟩

/-! ## Colour wrapping -/

/-- C16: for every text, `applyColor("", text) = text`, and for every
non-empty colour code `c`, whatever its bytes, `applyColor(c, text) = c + text
+ ColorReset`. -/
theorem C16_applyColor (b : Banner) (text : GoString) :
    b.applyColor [] text = text ∧
    ∀ c : GoString, c ≠ [] → b.applyColor c text = c ++ text ++ ColorReset := by
  constructor
  · unfold Banner.applyColor
    rw [if_neg (by simp)]
  · intro c hc
    unfold Banner.applyColor
    rw [if_pos hc]

theorem C16_applyColor_witness :
    New.applyColor [] (str "Hello") = str "Hello" ∧
    New.applyColor ColorRed (str "Hello") = ColorRed ++ str "Hello" ++ ColorReset ∧
    New.applyColor (str "not a colour") (str "X") = str "not a colour" ++ str "X" ++ ColorReset :=
  ⟨(C16_applyColor New (str "Hello")).1,
   (C16_applyColor New (str "Hello")).2 ColorRed (by decide),
   (C16_applyColor New (str "X")).2 (str "not a colour") (by decide)⟩

/-! ## Key-value lines -/

theorem runeCountLoop_ascii (s : GoString) (h : ∀ c ∈ s, c.toNat < 0x80) :
    runeCountLoop s.length s = s.length := by
  induction s with
  | nil => rfl
  | cons c t ih =>
    have hc : c.toNat < 0x80 := h c (List.mem_cons_self c t)
    have hsize : runeSize (c :: t) = 1 := by
      unfold runeSize
      simp only [if_pos hc]
    have ht := ih (fun d hd => h d (List.mem_cons_of_mem c hd))
    rw [List.length_cons, runeCountLoop, if_neg (List.cons_ne_nil c t), hsize, List.drop_one,
      List.tail_cons, ht]
    omega

theorem runeCountInString_ascii (s : GoString) (h : ∀ c ∈ s, c.toNat < 0x80) :
    runeCountInString s = s.length :=
  runeCountLoop_ascii s h

theorem sprintfPadded_of_range (padding : Int) (s value : GoString)
    (h0 : 0 ≤ padding) (h1 : padding ≤ 1000000) :
    sprintfPadded padding s value
      = s ++ spaces (padding - (runeCountInString s : Int)).toNat ++ str " " ++ value := by
  unfold sprintfPadded
  rw [if_neg (by omega)]
  simp only [if_neg (show ¬ padding < 0 by omega)]
  by_cases hw : padding - (runeCountInString s : Int) ≤ 0
  · rw [if_pos hw]
    have : (padding - (runeCountInString s : Int)).toNat = 0 := by omega
    rw [this]
    rfl
  · rw [if_neg hw]
    rfl

/-- C17 (counterexample): with the two-byte key `"é"`, value `"x"` and padding
3, `key + ":"` has 3 length units, so the text of the claim is `"é: x"` with
no padding; `fmt` counts 2 characters and pads with one space, and the line
`PrintKeyValue` emits on `New().SetWidth(20)` is that of `"é:  x"`, not the
line `PrintText` emits for the text of the claim. -/
theorem C17_counterexample :
    len (str "é" ++ str ":") = 3 ∧
    keyValueText (str "é") (str "x") 3 = str "é: x" ∧
    (New.SetWidth 20).PrintKeyValue (str "é") (str "x") 3
      = (New.SetWidth 20).PrintText (str "é:  x") ∧
    (New.SetWidth 20).PrintKeyValue (str "é") (str "x") 3
      ≠ (New.SetWidth 20).PrintText (keyValueText (str "é") (str "x") 3) := by
  have e1 : sprintfPadded 3 (str "é" ++ str ":") (str "x") = str "é:  x" := by decide
  have e2 : keyValueText (str "é") (str "x") 3 = str "é: x" := by decide
  refine ⟨by decide, e2, ?_, ?_⟩
  · unfold Banner.PrintKeyValue
    simp only [e1]
  · unfold Banner.PrintKeyValue
    simp only [e1, e2]
    unfold Banner.PrintText
    rw [printTextWithAlignment_of_ge _ _ _ (by decide) (by decide),
      printTextWithAlignment_of_ge _ _ _ (by decide) (by decide)]
    intro h
    exact absurd (Except.ok.inj h) (by decide)

/-- C17 (amended): for every banner, key, value and padding with
`0 ≤ padding ≤ 1000000`, `PrintKeyValue(key, value, padding)` emits exactly
the line `PrintText(s)` emits on the same banner, where `s = key + ":" +
(max(0, padding - runes(key + ":")) spaces) + " " + value` and `runes` counts
characters as `fmt` does (`utf8.RuneCountInString`), not length units; the
key with its colon is never truncated.  For a key of ASCII bytes the count is
`len(key + ":")`, and `s` is the text of the claim. -/
theorem C17_printKeyValue (b : Banner) (key value : GoString) (padding : Int)
    (h0 : 0 ≤ padding) (h1 : padding ≤ 1000000) :
    b.PrintKeyValue key value padding
      = b.PrintText (key ++ str ":"
          ++ spaces (padding - (runeCountInString (key ++ str ":") : Int)).toNat
          ++ str " " ++ value) ∧
    ((∀ c ∈ key, c.toNat < 0x80) →
      b.PrintKeyValue key value padding = b.PrintText (keyValueText key value padding)) := by
  have e : b.PrintKeyValue key value padding
      = b.PrintText (key ++ str ":"
          ++ spaces (padding - (runeCountInString (key ++ str ":") : Int)).toNat
          ++ str " " ++ value) := by
    unfold Banner.PrintKeyValue
    simp only [sprintfPadded_of_range padding _ value h0 h1]
  refine ⟨e, ?_⟩
  intro hk
  have hascii : ∀ c ∈ key ++ str ":", c.toNat < 0x80 := by
    intro c hc
    rcases List.mem_append.mp hc with h | h
    · exact hk c h
    · have hc2 : c = 58 := by
        have : str ":" = [58] := by decide
        rw [this] at h
        exact List.mem_singleton.mp h
      rw [hc2]
      decide
  rw [e, runeCountInString_ascii _ hascii]
  rfl

theorem C17_printKeyValue_witness :
    keyValueText (str "Version") (str "1.0.0") 8 = str "Version: 1.0.0" ∧
    (New.SetWidth 30).PrintKeyValue (str "Version") (str "1.0.0") 8
      = .ok (ColorPrimaryGreen ++ str "│" ++ ColorReset
          ++ str " Version: 1.0.0             "
          ++ (ColorPrimaryGreen ++ str "│" ++ ColorReset) ++ str "\n") :=
  ⟨by decide,
   (((C17_printKeyValue (New.SetWidth 30) (str "Version") (str "1.0.0") 8
        (by decide) (by decide)).2 (by decide)).trans
      (printTextWithAlignment_of_ge _ _ _ (by decide) (by decide))).trans
      (congrArg Except.ok (by decide))⟩

/-! ## The simple banner -/

theorem not_mem_flatten_replicate {a : UInt8} {s : GoString} (h : a ∉ s) (k : Nat) :
    a ∉ (List.replicate k s).flatten := by
  induction k with
  | zero => simp
  | succ k ih =>
    rw [List.replicate_succ, List.flatten_cons, List.mem_append]
    exact fun hm => hm.elim h ih

theorem newline_not_mem_alignedText (align : Alignment) (text : GoString) (n : Nat)
    (h : (10 : UInt8) ∉ text) : (10 : UInt8) ∉ alignedText align text n := by
  have hs : ∀ k, (10 : UInt8) ∉ spaces k := by
    intro k hk
    have := List.eq_of_mem_replicate hk
    exact absurd this (by decide)
  have ht : (10 : UInt8) ∉ text.take n := fun hm => h (List.mem_of_mem_take hm)
  unfold alignedText
  simp only []
  split
  · simp only [List.mem_append, not_or]
    exact ⟨⟨hs _, ht⟩, hs _⟩
  · split
    · simp only [List.mem_append, not_or]
      exact ⟨hs _, ht⟩
    · simp only [List.mem_append, not_or]
      exact ⟨ht, hs _⟩

theorem new_topLine :
    New.PrintTopLine = .ok (ColorPrimaryGreen
      ++ (str "┌" ++ horizontalFill simpleChars 78 ++ str "┐") ++ ColorReset ++ str "\n") :=
  (printTopLine_of_ge New (by decide) (by decide)).trans rfl

theorem new_bottomLine :
    New.PrintBottomLine = .ok (ColorPrimaryGreen
      ++ (str "└" ++ horizontalFill simpleChars 78 ++ str "┘") ++ ColorReset ++ str "\n") :=
  (printBottomLine_of_ge New (by decide) (by decide)).trans rfl

theorem new_centeredLine (text : GoString) :
    New.PrintCenteredText text = .ok (ColorPrimaryGreen ++ str "│" ++ ColorReset
      ++ (str " " ++ alignedText AlignCenter text 76 ++ str " ")
      ++ (ColorPrimaryGreen ++ str "│" ++ ColorReset) ++ str "\n") :=
  (printTextWithAlignment_of_ge New text AlignCenter (by decide) (by decide)).trans rfl

/-- C18: for every title and subtitle, `PrintSimple(title, subtitle)` emits,
in this order and with nothing else, the top line of the default renderer
`New()`, the centered title line if and only if the title is non-empty, the
centered subtitle line if and only if the subtitle is non-empty, and the
bottom line of the default renderer: `2 + [title != ""] + [subtitle != ""]`
lines, the first the top line and the last the bottom line, each terminated
by a newline (and holding no other newline when neither the title nor the
subtitle holds one). -/
theorem C18_printSimple (title subtitle : GoString) :
    ∃ top titleLine subtitleLine bottom : GoString,
      New.PrintTopLine = .ok top ∧
      New.PrintCenteredText title = .ok titleLine ∧
      New.PrintCenteredText subtitle = .ok subtitleLine ∧
      New.PrintBottomLine = .ok bottom ∧
      PrintSimple title subtitle
        = .ok (bannerLines title subtitle top titleLine subtitleLine bottom).flatten ∧
      (bannerLines title subtitle top titleLine subtitleLine bottom).length
        = 2 + (if title = [] then 0 else 1) + (if subtitle = [] then 0 else 1) ∧
      (bannerLines title subtitle top titleLine subtitleLine bottom).head? = some top ∧
      (bannerLines title subtitle top titleLine subtitleLine bottom).getLast? = some bottom ∧
      (∀ l ∈ [top, titleLine, subtitleLine, bottom], ∃ body : GoString,
        l = body ++ str "\n" ∧
        ((10 : UInt8) ∉ title → (10 : UInt8) ∉ subtitle → (10 : UInt8) ∉ body)) := by
  refine ⟨_, _, _, _, new_topLine, new_centeredLine title, new_centeredLine subtitle,
    new_bottomLine, ?_, ?_, ?_, ?_, ?_⟩
  · unfold PrintSimple
    simp only [new_topLine, new_bottomLine, new_centeredLine]
    unfold bannerLines
    by_cases ht : title = [] <;> by_cases hs : subtitle = [] <;>
      simp [ht, hs, bind, Except.bind, pure, Except.pure]
  · unfold bannerLines
    by_cases ht : title = [] <;> by_cases hs : subtitle = [] <;> simp [ht, hs]
  · rfl
  · unfold bannerLines
    by_cases ht : title = [] <;> by_cases hs : subtitle = [] <;> simp [ht, hs]
  · have hfill : (10 : UInt8) ∉ horizontalFill simpleChars 78 :=
      not_mem_flatten_replicate (by decide) 78
    have hg : (10 : UInt8) ∉ ColorPrimaryGreen := by decide
    have hr : (10 : UInt8) ∉ ColorReset := by decide
    have hv : (10 : UInt8) ∉ ColorPrimaryGreen ++ str "│" ++ ColorReset := by decide
    have hsp : (10 : UInt8) ∉ str " " := by decide
    have hcenter : ∀ text : GoString, (10 : UInt8) ∉ text →
        (10 : UInt8) ∉ ColorPrimaryGreen ++ str "│" ++ ColorReset
          ++ (str " " ++ alignedText AlignCenter text 76 ++ str " ")
          ++ (ColorPrimaryGreen ++ str "│" ++ ColorReset) := by
      intro text h
      have ha := newline_not_mem_alignedText AlignCenter text 76 h
      simp only [List.mem_append, not_or]
      simp only [List.mem_append, not_or] at hv
      exact ⟨⟨hv, ⟨hsp, ha⟩, hsp⟩, hv⟩
    intro l hl
    simp only [List.mem_cons, List.mem_singleton, List.not_mem_nil, or_false] at hl
    rcases hl with h | h | h | h
    · refine ⟨ColorPrimaryGreen ++ (str "┌" ++ horizontalFill simpleChars 78 ++ str "┐")
        ++ ColorReset, h, fun _ _ => ?_⟩
      simp only [List.mem_append, not_or]
      exact ⟨⟨hg, ⟨by decide, hfill⟩, by decide⟩, hr⟩
    · exact ⟨_, h, fun h1 _ => hcenter title h1⟩
    · exact ⟨_, h, fun _ h2 => hcenter subtitle h2⟩
    · refine ⟨ColorPrimaryGreen ++ (str "└" ++ horizontalFill simpleChars 78 ++ str "┘")
        ++ ColorReset, h, fun _ _ => ?_⟩
      simp only [List.mem_append, not_or]
      exact ⟨⟨hg, ⟨by decide, hfill⟩, by decide⟩, hr⟩

/-! ## Setters and the style invariant -/

theorem borderStyles_isSome_of_mem {s : Style}
    (h : s ∈ [StyleSimple, StyleDouble, StyleBold, StyleRound, StyleASCII]) :
    ∃ g, borderStyles s = some g := by
  simp only [List.mem_cons, List.mem_singleton, List.not_mem_nil, or_false] at h
  rcases h with h | h | h | h | h <;> subst h
  · exact ⟨simpleChars, by decide⟩
  · exact ⟨doubleChars, by decide⟩
  · exact ⟨boldChars, by decide⟩
  · exact ⟨roundChars, by decide⟩
  · exact ⟨asciiChars, by decide⟩

/-- C19: for every banner `b` and every argument `x`, each of `SetWidth(x)`,
`SetBorderColor(x)`, `SetTextColor(x)` and `SetBold(x)` returns `b` with
exactly its own field equal to `x` and every other field, `Style` and the
glyph set included, unchanged; `SetStyle(s)` with one of the five defined
styles sets `Style` to `s` and the glyph set to the table entry of `s` and
changes nothing else.  The chain `New().SetWidth(60).SetStyle(StyleDouble)
.SetBorderColor(ColorRed).SetTextColor(ColorBlue).SetBold(true)` has width 60,
style `StyleDouble`, border colour `ColorRed`, text colour `ColorBlue` and
`Bold` true. -/
theorem C19_setters_frame (b : Banner) :
    (∀ x : Int, (b.SetWidth x).Width = x ∧ (b.SetWidth x).Style = b.Style ∧
      (b.SetWidth x).BorderColor = b.BorderColor ∧ (b.SetWidth x).TextColor = b.TextColor ∧
      (b.SetWidth x).Bold = b.Bold ∧ (b.SetWidth x).borders = b.borders) ∧
    (∀ x : GoString, (b.SetBorderColor x).BorderColor = x ∧
      (b.SetBorderColor x).Width = b.Width ∧ (b.SetBorderColor x).Style = b.Style ∧
      (b.SetBorderColor x).TextColor = b.TextColor ∧ (b.SetBorderColor x).Bold = b.Bold ∧
      (b.SetBorderColor x).borders = b.borders) ∧
    (∀ x : GoString, (b.SetTextColor x).TextColor = x ∧
      (b.SetTextColor x).Width = b.Width ∧ (b.SetTextColor x).Style = b.Style ∧
      (b.SetTextColor x).BorderColor = b.BorderColor ∧ (b.SetTextColor x).Bold = b.Bold ∧
      (b.SetTextColor x).borders = b.borders) ∧
    (∀ x : Bool, (b.SetBold x).Bold = x ∧
      (b.SetBold x).Width = b.Width ∧ (b.SetBold x).Style = b.Style ∧
      (b.SetBold x).BorderColor = b.BorderColor ∧ (b.SetBold x).TextColor = b.TextColor ∧
      (b.SetBold x).borders = b.borders) ∧
    (∀ s : Style, s ∈ [StyleSimple, StyleDouble, StyleBold, StyleRound, StyleASCII] →
      (b.SetStyle s).Style = s ∧ borderStyles s = some (b.SetStyle s).borders ∧
      (b.SetStyle s).Width = b.Width ∧ (b.SetStyle s).BorderColor = b.BorderColor ∧
      (b.SetStyle s).TextColor = b.TextColor ∧ (b.SetStyle s).Bold = b.Bold) ∧
    (((((New.SetWidth 60).SetStyle StyleDouble).SetBorderColor ColorRed).SetTextColor
        ColorBlue).SetBold true)
      = { Width := 60, Style := StyleDouble, BorderColor := ColorRed, TextColor := ColorBlue,
          Bold := true, borders := doubleChars } := by
  refine ⟨fun x => ⟨rfl, rfl, rfl, rfl, rfl, rfl⟩, fun x => ⟨rfl, rfl, rfl, rfl, rfl, rfl⟩,
    fun x => ⟨rfl, rfl, rfl, rfl, rfl, rfl⟩, fun x => ⟨rfl, rfl, rfl, rfl, rfl, rfl⟩, ?_, ?_⟩
  · intro s hs
    obtain ⟨g, hg⟩ := borderStyles_isSome_of_mem hs
    rw [setStyle_of_some b hg]
    exact ⟨rfl, hg, rfl, rfl, rfl, rfl⟩
  · decide

theorem C19_setters_frame_witness :
    ((New.SetWidth 60).SetStyle StyleDouble).Style = StyleDouble ∧
    borderStyles StyleDouble = some ((New.SetWidth 60).SetStyle StyleDouble).borders ∧
    ((New.SetWidth 60).SetStyle StyleDouble).Width = 60 :=
  have h := (C19_setters_frame (New.SetWidth 60)).2.2.2.2.1 StyleDouble (by decide)
  ⟨h.1, h.2.1, h.2.2.1.trans ((C19_setters_frame New).1 60).1⟩

/-- C20: every banner reachable from `New()` by a finite sequence of
`SetStyle`, `SetWidth`, `SetBorderColor`, `SetTextColor` and `SetBold` calls
with arbitrary arguments, valid or invalid styles included, has a `Style`
that is one of the five defined styles, and its glyph set is the entry of the
glyph table at that `Style`. -/
theorem C20_style_invariant (b : Banner) (h : Reachable b) :
    b.Style ∈ [StyleSimple, StyleDouble, StyleBold, StyleRound, StyleASCII] ∧
    borderStyles b.Style = some b.borders := by
  have hb := borders_of_reachable h
  refine ⟨?_, hb⟩
  by_contra hn
  rw [borderStyles_eq_none hn] at hb
  cases hb

theorem C20_style_invariant_witness :
    Reachable (((New.SetStyle (str "invalid")).SetStyle StyleRound).SetWidth (-3)) ∧
    (((New.SetStyle (str "invalid")).SetStyle StyleRound).SetWidth (-3)).Style = StyleRound ∧
    borderStyles StyleRound
      = some (((New.SetStyle (str "invalid")).SetStyle StyleRound).SetWidth (-3)).borders :=
  have hr : Reachable (((New.SetStyle (str "invalid")).SetStyle StyleRound).SetWidth (-3)) :=
    Reachable.setWidth _ _ (Reachable.setStyle _ _ (Reachable.setStyle _ _ Reachable.new))
  ⟨hr, by decide, (C20_style_invariant _ hr).2⟩

end banner
